import Mathlib

/-!
Verification of the pairwise PR conflict checker (`pr_conflict_check.py`).

The script is embedded shallowly.  External subprocess invocations of the
version-control tool are modelled by an oracle `Env` that, given the list of
commands issued so far and the next command, answers whether that command
exits successfully (exit status 0).  The script only ever consumes the exit
status of these calls, so this captures its full control flow:

* `subprocess.run(..., check=True)` raises `CalledProcessError` exactly when
  the oracle answers `false`; the embedding propagates that as an error or
  follows the `except` handler, mirroring the `try`/`except` structure of
  `detect_conflicts` and the uncaught propagation everywhere else.
* `subprocess.run` without `check` never raises; its return code is the
  oracle's answer.

Pure string manipulation (`get_repo_info`), filtering (`get_open_prs`) and
naming (`get_branch_name`, temporary branch names) are translated directly.
-/

/-- One open pull request, with exactly the attributes the script reads:
`pr.number`, `pr.draft`, `pr.base.ref`, `pr.head.ref`,
`pr.head.repo.full_name`, `pr.base.repo.full_name`, `pr.head.repo.clone_url`
and the tri-state `pr.mergeable` (`none` = mergeability unknown). -/
structure PR where
  number : Nat
  draft : Bool
  baseRef : String
  headRef : String
  headRepoFullName : String
  baseRepoFullName : String
  headCloneUrl : String
  mergeable : Option Bool
deriving DecidableEq, Repr

/-- Default PR used only as the `getD` fallback value. -/
def dummyPR : PR := ⟨0, false, "", "", "", "", "", none⟩

/-- The git commands the script issues (one constructor per distinct
`subprocess.run(['git', ...])` call shape). -/
inductive GitCmd where
  | clone (url : String)
  | symbolicRef
  | fetch (remote refspec : String)
  | mergeAbort
  | checkoutNew (branch base : String)
  | merge (ref : String)
  | checkout (ref : String)
  | deleteBranch (name : String)
deriving DecidableEq, Repr

/-- The merge oracle: given the commands issued so far and the next command,
does that command exit with status 0? -/
def Env : Type := List GitCmd → GitCmd → Bool

/-- Python `str.split(sep)` for a one-character separator, on character
lists: `[] ↦ [""]`, and adjacent separators produce empty parts. -/
def splitOnChar (sep : Char) : List Char → List (List Char)
  | [] => [[]]
  | c :: rest =>
    if c = sep then [] :: splitOnChar sep rest
    else
      match splitOnChar sep rest with
      | [] => [[c]]
      | h :: t => (c :: h) :: t

/-- Python `s.split(sep)` for a one-character separator. -/
def pySplit (s : String) (sep : Char) : List String :=
  (splitOnChar sep s.data).map List.asString

/-- Python `s.endswith(suffix)`. -/
def pyEndsWith (s sfx : String) : Bool :=
  sfx.data.isSuffixOf s.data

/-- Python `s[:-n]` for `n ≤ len(s)`: drop the last `n` characters. -/
def pyDropRight (s : String) (n : Nat) : String :=
  (s.data.take (s.data.length - n)).asString

/-- Python `s.strip()`: remove leading and trailing whitespace. -/
def pyStrip (s : String) : String :=
  (((s.data.dropWhile Char.isWhitespace).reverse.dropWhile Char.isWhitespace).reverse).asString

/-- `get_repo_info`, lines 51-54: strip one trailing `.git`, then one
trailing `/`. -/
def strippedUrl (repo_url : String) : String :=
  let u := if pyEndsWith repo_url ".git" then pyDropRight repo_url 4 else repo_url
  if pyEndsWith u "/" then pyDropRight u 1 else u

/-- `get_repo_info` (lines 48-60): split the stripped URL on `/`; raise
`ValueError` when fewer than two parts result, otherwise return the last two
parts as `(owner, repo)`. -/
def get_repo_info (repo_url : String) : Except String (String × String) :=
  let parts := pySplit (strippedUrl repo_url) '/'
  if parts.length < 2 then Except.error "Invalid repository URL format"
  else Except.ok (parts.getD (parts.length - 2) "", parts.getD (parts.length - 1) "")

/-- The filter of `get_open_prs` (lines 69-76), one `continue` per test.
`base_branch = none` models Python `None`; note that the code's
`if base_branch and pr.base.ref != base_branch` only filters when
`base_branch` is truthy, i.e. neither `None` nor the empty string. -/
def prKeep (base_branch : Option String) (pr : PR) : Bool :=
  if pr.draft then false
  else if (match base_branch with
           | some b => !(b == "") && !(pr.baseRef == b)
           | none => false) then false
  else if pr.mergeable == some false then false
  else true

/-- `get_open_prs` (lines 62-78): the open PRs that survive the filter, in
input order. -/
def get_open_prs (prs : List PR) (base_branch : Option String) : List PR :=
  prs.filter (prKeep base_branch)

/-- `get_branch_name` (lines 112-114): the canonical local branch name. -/
def get_branch_name (pr : PR) : String :=
  "PR_" ++ Nat.repr pr.number

/-- The temporary integration branch name of trial `(i, j)` (line 135). -/
def temp_branch (i j : Nat) : String :=
  "temp_conflict_check_" ++ Nat.repr i ++ "_" ++ Nat.repr j

/-- The fetch command `fetch_pr_branches` issues for one PR (lines 101-110):
from the fork's clone URL when the head repository differs from the base
repository, from `origin` otherwise. -/
def fetchCmd (pr : PR) : GitCmd :=
  if pr.headRepoFullName ≠ pr.baseRepoFullName then
    GitCmd.fetch pr.headCloneUrl (pr.headRef ++ ":" ++ get_branch_name pr)
  else
    GitCmd.fetch "origin" (pr.headRef ++ ":" ++ get_branch_name pr)

/-- `fetch_pr_branches` (lines 94-110): fetch every PR branch in order; each
fetch runs with `check=True` and is not wrapped in any handler, so the first
failure raises out of `detect_conflicts` and aborts the run. -/
def fetch_pr_branches (env : Env) (tr : List GitCmd) : List PR → Except String (List GitCmd)
  | [] => Except.ok tr
  | pr :: rest =>
    if env tr (fetchCmd pr) then fetch_pr_branches env (tr ++ [fetchCmd pr]) rest
    else Except.error "fetch failed"

/-- One cell of the `detect_conflicts` double loop (lines 125-166), for row
index `i` and column index `j`.  Returns the list of entries appended to the
row (the `except` handler can append a second entry for the same `j`) and the
extended command trace.

* `i = j`: append `False`, no command issued (lines 126-128).
* `git merge --abort` runs with `check=False`: its result is ignored.
* `git checkout -b temp base` runs with `check=True`: on failure the
  `except` handler appends `True` and the cell ends.
* the first `git merge` (candidate `i`'s branch) has no `check`; its result
  `merge1_result` is never read by the script.
* the second `git merge` decides the recorded entry (`not merge_success`).
* cleanup `git checkout base` and `git branch -D temp` run with
  `check=True` after the entry was appended: on failure the handler appends
  a second `True` for the same cell and the rest of the cleanup is skipped. -/
def runCell (env : Env) (tr : List GitCmd) (pr1 pr2 : PR) (i j : Nat) :
    List Bool × List GitCmd :=
  if i = j then ([false], tr)
  else
    let tr1 := tr ++ [GitCmd.mergeAbort]
    if env tr1 (GitCmd.checkoutNew (temp_branch i j) pr1.baseRef) = false then
      ([true], tr1 ++ [GitCmd.checkoutNew (temp_branch i j) pr1.baseRef])
    else
      let tr2 := tr1 ++ [GitCmd.checkoutNew (temp_branch i j) pr1.baseRef,
                         GitCmd.merge (get_branch_name pr1)]
      let ok2 := env tr2 (GitCmd.merge (get_branch_name pr2))
      let tr3 := tr2 ++ [GitCmd.merge (get_branch_name pr2)]
      if env tr3 (GitCmd.checkout pr1.baseRef) = false then
        ([!ok2, true], tr3 ++ [GitCmd.checkout pr1.baseRef])
      else
        let tr4 := tr3 ++ [GitCmd.checkout pr1.baseRef]
        if env tr4 (GitCmd.deleteBranch (temp_branch i j)) = false then
          ([!ok2, true], tr4 ++ [GitCmd.deleteBranch (temp_branch i j)])
        else
          ([!ok2], tr4 ++ [GitCmd.deleteBranch (temp_branch i j)])

/-- The inner `for j, pr2 in enumerate(prs)` loop building row `i`. -/
def runRowAux (env : Env) (pr1 : PR) (i : Nat) :
    Nat → List PR → List GitCmd → List Bool × List GitCmd
  | _, [], tr => ([], tr)
  | j, pr2 :: rest, tr =>
    ((runCell env tr pr1 pr2 i j).1 ++
       (runRowAux env pr1 i (j + 1) rest (runCell env tr pr1 pr2 i j).2).1,
     (runRowAux env pr1 i (j + 1) rest (runCell env tr pr1 pr2 i j).2).2)

/-- The outer `for i, pr1 in enumerate(prs)` loop building the matrix. -/
def runRowsAux (env : Env) :
    Nat → List PR → List PR → List GitCmd → List (List Bool) × List GitCmd
  | _, [], _, tr => ([], tr)
  | i, pr1 :: rest, prs, tr =>
    ((runRowAux env pr1 i 0 prs tr).1 ::
       (runRowsAux env (i + 1) rest prs (runRowAux env pr1 i 0 prs tr).2).1,
     (runRowsAux env (i + 1) rest prs (runRowAux env pr1 i 0 prs tr).2).2)

/-- `detect_conflicts` (lines 116-170): first fetch all PR branches (a fetch
failure propagates), then run the double loop. -/
def detect_conflicts (env : Env) (prs : List PR) (tr : List GitCmd) :
    Except String (List (List Bool) × List GitCmd) :=
  match fetch_pr_branches env tr prs with
  | Except.error e => Except.error e
  | Except.ok tr' => Except.ok (runRowsAux env 0 prs prs tr')

/-- The conflict matrix of a finished run, `none` when the run aborted. -/
def matrixOf : Except String (List (List Bool) × List GitCmd) → Option (List (List Bool))
  | Except.ok p => some p.1
  | Except.error _ => none

/-- The command trace of a finished run, `none` when the run aborted. -/
def traceOf : Except String (List (List Bool) × List GitCmd) → Option (List GitCmd)
  | Except.ok p => some p.2
  | Except.error _ => none

/-- Modelled from the spec: the Working Repository state the adapter
operations mutate (section 4.1: "every operation mutates the Working
Repository's checked-out state and/or branch set"; git itself is outside
`src/`).  `head` is the single checked-out reference, `branches` the local
branch set. -/
structure GitState where
  head : String
  branches : List String
deriving DecidableEq, Repr

/-- Add a branch name if not present. -/
def addBranch (bs : List String) (b : String) : List String :=
  if b ∈ bs then bs else bs ++ [b]

/-- Modelled from the spec: the effect of one adapter operation on the
Working Repository (section 4.1), given whether it succeeded.  A successful
`checkout -b` creates and checks out the branch, `checkout` moves `head`,
`branch -D` deletes, `fetch r ref:local` creates `local`; failed operations
and `merge`/`merge --abort` leave `head` and the branch set unchanged. -/
def applyCmd (ok : Bool) (st : GitState) : GitCmd → GitState
  | GitCmd.checkoutNew b _ => if ok then ⟨b, addBranch st.branches b⟩ else st
  | GitCmd.checkout r => if ok then ⟨r, st.branches⟩ else st
  | GitCmd.deleteBranch b => if ok then ⟨st.head, st.branches.erase b⟩ else st
  | GitCmd.fetch _ refspec =>
      if ok then ⟨st.head, addBranch st.branches ((pySplit refspec ':').getLastD "")⟩ else st
  | _ => st

/-- Replay a command list over a Working Repository state, consulting the
oracle (at the same history prefixes the script used) for each command's
success. -/
def replay (env : Env) : GitState → List GitCmd → List GitCmd → GitState
  | st, _, [] => st
  | st, hist, c :: rest => replay env (applyCmd (env hist c) st c) (hist ++ [c]) rest

/-- Outcome of a whole run: the matrix if one was produced, and the command
trace. -/
structure RunResult where
  matrix : Option (List (List Bool))
  trace : List GitCmd
deriving DecidableEq, Repr

/-- The tail of `main` once the base branch is known (lines 230-245):
filter the PRs, stop normally when fewer than two remain, otherwise run
`detect_conflicts`. -/
def mainWithBase (env : Env) (tr : List GitCmd) (base : String) (api_prs : List PR) :
    Except String RunResult :=
  let prs := get_open_prs api_prs (some base)
  if prs.length < 2 then Except.ok ⟨none, tr⟩
  else
    match detect_conflicts env prs tr with
    | Except.error e => Except.error e
    | Except.ok (m, tr') => Except.ok ⟨some m, tr'⟩

/-- `main` (lines 207-245): parse the URL (a `ValueError` aborts), clone
(`check=True`, uncaught), resolve the base branch (the `--base-branch`
argument when truthy, otherwise `git symbolic-ref` parsed as
`stdout.strip().split('/')[-1]`), then `mainWithBase`.  `symref_out` is the
standard output the oracle's `symbolic-ref` call produces. -/
def main_run (repo_url : String) (base_branch_arg : Option String) (symref_out : String)
    (api_prs : List PR) (env : Env) : Except String RunResult :=
  match get_repo_info repo_url with
  | Except.error e => Except.error e
  | Except.ok _ =>
    if env [] (GitCmd.clone repo_url) = false then Except.error "git clone failed"
    else
      if (match base_branch_arg with
          | some b => !(b == "")
          | none => false) then
        mainWithBase env [GitCmd.clone repo_url] (base_branch_arg.getD "") api_prs
      else
        if env [GitCmd.clone repo_url] GitCmd.symbolicRef = false then
          Except.error "git symbolic-ref failed"
        else
          mainWithBase env [GitCmd.clone repo_url, GitCmd.symbolicRef]
            ((pySplit (pyStrip symref_out) '/').getLastD "") api_prs

instance {ε α : Type} [DecidableEq ε] [DecidableEq α] : DecidableEq (Except ε α)
  | Except.ok a, Except.ok b =>
    if h : a = b then isTrue (by rw [h]) else isFalse (by intro he; cases he; exact h rfl)
  | Except.ok _, Except.error _ => isFalse (by intro h; cases h)
  | Except.error _, Except.ok _ => isFalse (by intro h; cases h)
  | Except.error e, Except.error f =>
    if h : e = f then isTrue (by rw [h]) else isFalse (by intro he; cases he; exact h rfl)

/-- Infrastructure commands: everything except the merge attempts whose
non-zero exit is the measured conflict signal. -/
def isInfra : GitCmd → Bool
  | GitCmd.merge _ => false
  | GitCmd.mergeAbort => false
  | _ => true

/-- An oracle under which every infrastructure operation succeeds (merges
may still report conflicts freely). -/
def InfraOk (env : Env) : Prop :=
  ∀ (tr : List GitCmd) (c : GitCmd), isInfra c = true → env tr c = true

/-- The decimal digit characters of `n`, most significant first; reference
function for `Nat.repr`. -/
def natChars (n : Nat) : List Char :=
  if _h : n < 10 then [Nat.digitChar n]
  else natChars (n / 10) ++ [Nat.digitChar (n % 10)]
termination_by n
decreasing_by exact Nat.div_lt_self (by omega) (by omega)

/-- An oracle under which every command succeeds. -/
def envTrue : Env := fun _ _ => true

/-- Concrete candidate: PR #1, same repository as base. -/
def pA : PR := ⟨1, false, "main", "feat-a", "o/r", "o/r", "https://github.com/o/r.git", some true⟩

/-- Concrete candidate: PR #2, same repository as base, mergeability
unknown. -/
def pB : PR := ⟨2, false, "main", "feat-b", "o/r", "o/r", "https://github.com/o/r.git", none⟩

/-- Concrete two-candidate list. -/
def prs2 : List PR := [pA, pB]

/-- Concrete fork candidate: PR #7 whose head repository differs from the
base repository. -/
def pFork : PR := ⟨7, false, "main", "feat", "f/r", "o/r", "https://github.com/f/r.git", some true⟩

/-- Oracle that fails exactly the creation of the temporary branch of trial
(0, 1); merges all succeed. -/
def envC2 : Env := fun _ c =>
  match c with
  | GitCmd.checkoutNew b _ => !(b == temp_branch 0 1)
  | _ => true

/-- Oracle that fails every `git checkout` issued after the temporary branch
of trial (0, 1) has been created; everything else (merges included)
succeeds. -/
def envC3 : Env := fun hist c =>
  match c with
  | GitCmd.checkout _ => !(decide (GitCmd.checkoutNew (temp_branch 0 1) "main" ∈ hist))
  | _ => true

/-- Oracle that fails exactly the first merge of trial (0, 1) (the merge of
candidate 0's branch issued directly after the temporary branch of trial
(0, 1) was created); everything else succeeds. -/
def envC4 : Env := fun hist c =>
  match c with
  | GitCmd.merge r =>
      !(decide (r = get_branch_name pA ∧
        hist.getLastD GitCmd.mergeAbort = GitCmd.checkoutNew (temp_branch 0 1) "main"))
  | _ => true

/-- Oracle that fails every `git checkout` issued after the temporary branch
of trial (1, 0) has been created; everything else succeeds. -/
def envC5 : Env := fun hist c =>
  match c with
  | GitCmd.checkout _ => !(decide (GitCmd.checkoutNew (temp_branch 1 0) "main" ∈ hist))
  | _ => true

/-- A draft PR targeting `main`. -/
def pDraft : PR := ⟨3, true, "main", "feat-c", "o/r", "o/r", "https://github.com/o/r.git", some true⟩

/-- A PR already known to conflict (`mergeable` is `False`). -/
def pConflicting : PR := ⟨4, false, "main", "feat-d", "o/r", "o/r", "https://github.com/o/r.git", some false⟩

theorem natChars_lt (n : Nat) (h : n < 10) : natChars n = [Nat.digitChar n] := by
  rw [natChars]; simp [h]

theorem natChars_ge (n : Nat) (h : ¬ n < 10) :
    natChars n = natChars (n / 10) ++ [Nat.digitChar (n % 10)] := by
  rw [natChars]; simp [h]

theorem natChars_ne_nil (n : Nat) : natChars n ≠ [] := by
  by_cases h : n < 10
  · rw [natChars_lt n h]; simp
  · rw [natChars_ge n h]; simp

theorem digitChar_isDigit (k : Nat) (h : k < 10) : (Nat.digitChar k).isDigit = true := by
  interval_cases k <;> decide

theorem digitChar_inj (a b : Nat) (ha : a < 10) (hb : b < 10) :
    Nat.digitChar a = Nat.digitChar b → a = b := by
  interval_cases a <;> interval_cases b <;> decide

theorem natChars_isDigit (n : Nat) : ∀ c ∈ natChars n, c.isDigit = true := by
  induction n using Nat.strong_induction_on with
  | _ n ih =>
    by_cases h : n < 10
    · rw [natChars_lt n h]
      intro c hc
      simp only [List.mem_singleton] at hc
      subst hc
      exact digitChar_isDigit n h
    · rw [natChars_ge n h]
      intro c hc
      rcases List.mem_append.mp hc with h1 | h2
      · exact ih (n / 10) (Nat.div_lt_self (by omega) (by omega)) c h1
      · simp only [List.mem_singleton] at h2
        subst h2
        exact digitChar_isDigit _ (Nat.mod_lt _ (by omega))

theorem natChars_inj : ∀ m n : Nat, natChars m = natChars n → m = n := by
  intro m
  induction m using Nat.strong_induction_on with
  | _ m ih =>
    intro n h
    by_cases hm : m < 10 <;> by_cases hn : n < 10
    · rw [natChars_lt m hm, natChars_lt n hn] at h
      simp only [List.cons.injEq, and_true] at h
      exact digitChar_inj m n hm hn h
    · rw [natChars_lt m hm, natChars_ge n hn] at h
      cases hnc : natChars (n / 10) with
      | nil => exact absurd hnc (natChars_ne_nil _)
      | cons c cs => rw [hnc] at h; simp at h
    · rw [natChars_ge m hm, natChars_lt n hn] at h
      cases hnc : natChars (m / 10) with
      | nil => exact absurd hnc (natChars_ne_nil _)
      | cons c cs => rw [hnc] at h; simp at h
    · rw [natChars_ge m hm, natChars_ge n hn] at h
      obtain ⟨h1, h2⟩ := List.append_inj' h (by simp)
      have hd : m / 10 = n / 10 := ih (m / 10) (Nat.div_lt_self (by omega) (by omega)) _ h1
      simp only [List.cons.injEq, and_true] at h2
      have hm2 : m % 10 = n % 10 :=
        digitChar_inj _ _ (Nat.mod_lt _ (by omega)) (Nat.mod_lt _ (by omega)) h2
      have d1 := Nat.div_add_mod m 10
      have d2 := Nat.div_add_mod n 10
      omega

theorem toDigitsCore_natChars :
    ∀ (fuel n : Nat) (ds : List Char), n < fuel →
      Nat.toDigitsCore 10 fuel n ds = natChars n ++ ds := by
  intro fuel
  induction fuel with
  | zero => intro n ds h; omega
  | succ f ih =>
    intro n ds hn
    unfold Nat.toDigitsCore
    by_cases h0 : n / 10 = 0
    · have hlt : n < 10 := (Nat.div_eq_zero_iff (by omega)).mp h0
      simp [h0, natChars_lt n hlt, Nat.mod_eq_of_lt hlt]
    · have hge : ¬ n < 10 := fun hlt => h0 ((Nat.div_eq_zero_iff (by omega)).mpr hlt)
      have hf : n / 10 < f := by
        have := Nat.div_lt_self (n := n) (by omega) (by omega : (1 : Nat) < 10)
        omega
      simp only [h0, if_false]
      rw [ih (n / 10) _ hf, natChars_ge n hge]
      simp

theorem repr_eq_natChars (n : Nat) : Nat.repr n = (natChars n).asString := by
  show (Nat.toDigits 10 n).asString = _
  unfold Nat.toDigits
  rw [toDigitsCore_natChars (n + 1) n [] (Nat.lt_succ_self n)]
  simp

theorem repr_inj {m n : Nat} (h : Nat.repr m = Nat.repr n) : m = n := by
  rw [repr_eq_natChars, repr_eq_natChars] at h
  apply natChars_inj
  have h2 := congrArg String.data h
  simpa [List.asString] using h2

theorem natChars_no_underscore (n : Nat) : '_' ∉ natChars n := by
  intro hm
  have := natChars_isDigit n _ hm
  exact absurd this (by decide)

theorem splitUnderscore :
    ∀ (a a' b b' : List Char), '_' ∉ a → '_' ∉ a' →
      a ++ '_' :: b = a' ++ '_' :: b' → a = a' ∧ b = b' := by
  intro a
  induction a with
  | nil =>
    intro a' b b' _ h2 heq
    cases a' with
    | nil => simpa using heq
    | cons y ys =>
      exfalso
      simp only [List.nil_append, List.cons_append, List.cons.injEq] at heq
      exact h2 (by simp [← heq.1])
  | cons x xs ih =>
    intro a' b b' h1 h2 heq
    cases a' with
    | nil =>
      exfalso
      simp only [List.nil_append, List.cons_append, List.cons.injEq] at heq
      exact h1 (by simp [heq.1])
    | cons y ys =>
      simp only [List.cons_append, List.cons.injEq] at heq
      obtain ⟨hxy, htail⟩ := heq
      have h1' : '_' ∉ xs := fun hm => h1 (List.mem_cons_of_mem _ hm)
      have h2' : '_' ∉ ys := fun hm => h2 (List.mem_cons_of_mem _ hm)
      obtain ⟨he1, he2⟩ := ih ys b b' h1' h2' htail
      exact ⟨by rw [hxy, he1], he2⟩

theorem asString_data (l : List Char) : (List.asString l).data = l := rfl

theorem prKeep_some_eq (b : String) (pr : PR) (hb : (b == "") = false) :
    prKeep (some b) pr = (!pr.draft && (pr.baseRef == b) && !(pr.mergeable == some false)) := by
  unfold prKeep
  cases hd : pr.draft
  · cases hbr : pr.baseRef == b
    · simp [hb, hbr]
    · cases hm : pr.mergeable == some false <;> simp [hb, hbr, hm]
  · simp

theorem prKeep_none_eq (pr : PR) :
    prKeep none pr = (!pr.draft && !(pr.mergeable == some false)) := by
  unfold prKeep
  cases hd : pr.draft
  · cases hm : pr.mergeable == some false <;> simp [hm]
  · simp

theorem isInfra_fetchCmd (pr : PR) : isInfra (fetchCmd pr) = true := by
  unfold fetchCmd
  split <;> rfl

theorem runCell_diag (env : Env) (tr : List GitCmd) (p q : PR) (k : Nat) :
    runCell env tr p q k k = ([false], tr) := by
  simp [runCell]

theorem runCell_infra (env : Env) (h : InfraOk env) (tr : List GitCmd) (p q : PR)
    (i j : Nat) (hij : i ≠ j) :
    runCell env tr p q i j =
      ([! env (tr ++ [GitCmd.mergeAbort,
                      GitCmd.checkoutNew (temp_branch i j) p.baseRef,
                      GitCmd.merge (get_branch_name p)])
             (GitCmd.merge (get_branch_name q))],
       tr ++ [GitCmd.mergeAbort,
              GitCmd.checkoutNew (temp_branch i j) p.baseRef,
              GitCmd.merge (get_branch_name p),
              GitCmd.merge (get_branch_name q),
              GitCmd.checkout p.baseRef,
              GitCmd.deleteBranch (temp_branch i j)]) := by
  have e1 : ∀ t, env t (GitCmd.checkoutNew (temp_branch i j) p.baseRef) = true :=
    fun t => h _ _ rfl
  have e2 : ∀ t, env t (GitCmd.checkout p.baseRef) = true := fun t => h _ _ rfl
  have e3 : ∀ t, env t (GitCmd.deleteBranch (temp_branch i j)) = true := fun t => h _ _ rfl
  simp [runCell, hij, e1, e2, e3, List.append_assoc]

theorem runCell_singleton (env : Env) (h : InfraOk env) (tr : List GitCmd) (p q : PR)
    (i j : Nat) : ∃ b tr', runCell env tr p q i j = ([b], tr') := by
  by_cases hij : i = j
  · exact ⟨false, tr, by rw [hij, runCell_diag]⟩
  · exact ⟨_, _, runCell_infra env h tr p q i j hij⟩

theorem runRowAux_length (env : Env) (h : InfraOk env) (p : PR) (i : Nat) :
    ∀ (l : List PR) (j0 : Nat) (tr : List GitCmd),
      (runRowAux env p i j0 l tr).1.length = l.length := by
  intro l
  induction l with
  | nil => intro j0 tr; simp [runRowAux]
  | cons q rest ih =>
    intro j0 tr
    obtain ⟨b, tr', hc⟩ := runCell_singleton env h tr p q i j0
    simp [runRowAux, hc, ih]

theorem runRowAux_getD (env : Env) (h : InfraOk env) (p : PR) (i : Nat) :
    ∀ (l : List PR) (k j0 : Nat) (tr : List GitCmd), k < l.length →
      ∃ tr₀, (runRowAux env p i j0 l tr).1.getD k false =
        (runCell env tr₀ p (l.getD k dummyPR) i (j0 + k)).1.getD 0 false := by
  intro l
  induction l with
  | nil => intro k j0 tr hk; simp at hk
  | cons q rest ih =>
    intro k j0 tr hk
    obtain ⟨b, tr', hc⟩ := runCell_singleton env h tr p q i j0
    cases k with
    | zero =>
      refine ⟨tr, ?_⟩
      simp [runRowAux, hc]
    | succ k' =>
      have hk' : k' < rest.length := by simpa using hk
      obtain ⟨tr₀, ht⟩ := ih k' (j0 + 1) tr' hk'
      refine ⟨tr₀, ?_⟩
      simp only [runRowAux, hc, List.cons_append, List.nil_append, List.getD_cons_succ,
        List.getD_cons_succ]
      rw [show j0 + (k' + 1) = j0 + 1 + k' by omega]
      exact ht

theorem runRowsAux_getD (env : Env) :
    ∀ (l : List PR) (k : Nat) (prs : List PR) (i0 : Nat) (tr : List GitCmd), k < l.length →
      ∃ tr₀, (runRowsAux env i0 l prs tr).1.getD k [] =
        (runRowAux env (l.getD k dummyPR) (i0 + k) 0 prs tr₀).1 := by
  intro l
  induction l with
  | nil => intro k prs i0 tr hk; simp at hk
  | cons p1 rest ih =>
    intro k prs i0 tr hk
    cases k with
    | zero => exact ⟨tr, by simp [runRowsAux]⟩
    | succ k' =>
      have hk' : k' < rest.length := by simpa using hk
      obtain ⟨tr₀, ht⟩ := ih k' prs (i0 + 1) (runRowAux env p1 i0 0 prs tr).2 hk'
      refine ⟨tr₀, ?_⟩
      simp only [runRowsAux, List.getD_cons_succ]
      rw [show i0 + (k' + 1) = i0 + 1 + k' by omega]
      exact ht

theorem fetch_pr_branches_ok (env : Env) (h : InfraOk env) :
    ∀ (l : List PR) (tr : List GitCmd),
      fetch_pr_branches env tr l = Except.ok (tr ++ l.map fetchCmd) := by
  intro l
  induction l with
  | nil => intro tr; simp [fetch_pr_branches]
  | cons pr rest ih =>
    intro tr
    have he : env tr (fetchCmd pr) = true := h tr (fetchCmd pr) (isInfra_fetchCmd pr)
    simp [fetch_pr_branches, he, ih, List.append_assoc]

theorem detect_conflicts_infra (env : Env) (h : InfraOk env) (prs : List PR) (tr : List GitCmd) :
    detect_conflicts env prs tr =
      Except.ok (runRowsAux env 0 prs prs (tr ++ prs.map fetchCmd)) := by
  simp [detect_conflicts, fetch_pr_branches_ok env h]

/-- C1 (amended): provided every infrastructure operation of the run
succeeds, the conflict-matrix entry [i][j] (for i ≠ j) is true if and only
if the oracle reports the merge of candidate j's local branch — issued
immediately after creating the trial's temporary branch from the base and
merging candidate i's local branch, i.e. always i first and j second — as
not completing cleanly; the trials for [i][j] and [j][i] are independent.
Without the proviso the stated biconditional fails on the code (an
infrastructure failure is also recorded as a true entry). -/
theorem detect_conflicts_entry_spec (env : Env) (prs : List PR) (tr : List GitCmd)
    (h : InfraOk env) (i j : Nat) (hi : i < prs.length) (hj : j < prs.length)
    (hij : i ≠ j) :
    ∃ (m : List (List Bool)) (tr₀ : List GitCmd),
      matrixOf (detect_conflicts env prs tr) = some m ∧
      (m.getD i []).getD j false =
        ! env (tr₀ ++ [GitCmd.mergeAbort,
                       GitCmd.checkoutNew (temp_branch i j) (prs.getD i dummyPR).baseRef,
                       GitCmd.merge (get_branch_name (prs.getD i dummyPR))])
              (GitCmd.merge (get_branch_name (prs.getD j dummyPR))) := by
  rw [detect_conflicts_infra env h prs tr]
  obtain ⟨tr₁, hrow⟩ := runRowsAux_getD env prs i prs 0 (tr ++ prs.map fetchCmd) hi
  simp only [Nat.zero_add] at hrow
  obtain ⟨tr₀, hcell⟩ := runRowAux_getD env h (prs.getD i dummyPR) i prs j 0 tr₁ hj
  simp only [Nat.zero_add] at hcell
  refine ⟨(runRowsAux env 0 prs prs (tr ++ prs.map fetchCmd)).1, tr₀, rfl, ?_⟩
  rw [hrow, hcell,
    runCell_infra env h tr₀ (prs.getD i dummyPR) (prs.getD j dummyPR) i j hij]
  rfl

/-- Witness for C1: the amended theorem instantiated at an all-successful
oracle and a concrete two-candidate list. -/
theorem detect_conflicts_entry_spec_witness :
    ∃ (m : List (List Bool)) (tr₀ : List GitCmd),
      matrixOf (detect_conflicts envTrue prs2 []) = some m ∧
      (m.getD 0 []).getD 1 false =
        ! envTrue (tr₀ ++ [GitCmd.mergeAbort,
                           GitCmd.checkoutNew (temp_branch 0 1) (prs2.getD 0 dummyPR).baseRef,
                           GitCmd.merge (get_branch_name (prs2.getD 0 dummyPR))])
                  (GitCmd.merge (get_branch_name (prs2.getD 1 dummyPR))) :=
  detect_conflicts_entry_spec envTrue prs2 [] (fun _ _ _ => rfl) 0 1
    (by decide) (by decide) (by decide)

/-- Counterexample to C1 as stated: under `envC2` every merge completes
cleanly, only the creation of the temporary branch of trial (0, 1) fails,
yet the recorded entry [0][1] is true — and the full trace shows that trial
(0, 1) issued no merge command at all, so "entry true iff the second merge
does not complete cleanly" is false on the code. -/
theorem detect_conflicts_entry_cex :
    matrixOf (detect_conflicts envC2 prs2 []) = some [[false, true], [false, false]] ∧
    traceOf (detect_conflicts envC2 prs2 []) = some
      [GitCmd.fetch "origin" "feat-a:PR_1", GitCmd.fetch "origin" "feat-b:PR_2",
       GitCmd.mergeAbort, GitCmd.checkoutNew "temp_conflict_check_0_1" "main",
       GitCmd.mergeAbort, GitCmd.checkoutNew "temp_conflict_check_1_0" "main",
       GitCmd.merge "PR_2", GitCmd.merge "PR_1", GitCmd.checkout "main",
       GitCmd.deleteBranch "temp_conflict_check_1_0"] := by
  decide

/-- C2: the code violates this claim.  Under `envC2` the only failing
operation is the infrastructure operation `git checkout -b
temp_conflict_check_0_1 main` (every merge and every other operation
succeeds), yet the run completes normally — it is not treated as fatal —
and entry [0][1] = true is recorded: the `except CalledProcessError`
handler (lines 165-166) turns an infrastructure failure into a conflict
signal. -/
theorem infra_failure_recorded_as_conflict :
    (detect_conflicts envC2 prs2 []).isOk = true ∧
    matrixOf (detect_conflicts envC2 prs2 []) = some [[false, true], [false, false]] := by
  decide

/-- C3: the code violates this claim.  Under `envC3` trial (0, 1) completes
(the exception is caught, a second spurious entry is even appended to the
row), but the cleanup `git checkout main` failed and `git branch -D` was
never issued; replaying the trial's commands over the Working Repository
shows the temporary branch still checked out and still existing when the
next trial begins. -/
theorem cleanup_skipped_on_error_path :
    runCell envC3 [fetchCmd pA, fetchCmd pB] pA pB 0 1 =
      ([false, true],
       [fetchCmd pA, fetchCmd pB, GitCmd.mergeAbort,
        GitCmd.checkoutNew (temp_branch 0 1) "main",
        GitCmd.merge (get_branch_name pA), GitCmd.merge (get_branch_name pB),
        GitCmd.checkout "main"]) ∧
    replay envC3 ⟨"main", ["main"]⟩ [fetchCmd pA, fetchCmd pB]
      [GitCmd.mergeAbort, GitCmd.checkoutNew (temp_branch 0 1) "main",
       GitCmd.merge (get_branch_name pA), GitCmd.merge (get_branch_name pB),
       GitCmd.checkout "main"] =
      ⟨"temp_conflict_check_0_1", ["main", "temp_conflict_check_0_1"]⟩ := by
  decide

/-- C4: the code violates this claim.  Under `envC4` the first merge of
trial (0, 1) — candidate 0's branch, merged right after the temporary
branch was created — fails, while every other operation succeeds.  The
script never reads `merge1_result`: it proceeds to the second merge,
records entry [0][1] = false from that merge alone, and the whole run
completes cleanly, as the matrix and the full trace show. -/
theorem first_merge_failure_ignored :
    envC4 [fetchCmd pA, fetchCmd pB, GitCmd.mergeAbort,
           GitCmd.checkoutNew (temp_branch 0 1) "main"]
          (GitCmd.merge (get_branch_name pA)) = false ∧
    matrixOf (detect_conflicts envC4 prs2 []) = some [[false, false], [false, false]] ∧
    traceOf (detect_conflicts envC4 prs2 []) = some
      [GitCmd.fetch "origin" "feat-a:PR_1", GitCmd.fetch "origin" "feat-b:PR_2",
       GitCmd.mergeAbort, GitCmd.checkoutNew "temp_conflict_check_0_1" "main",
       GitCmd.merge "PR_1", GitCmd.merge "PR_2", GitCmd.checkout "main",
       GitCmd.deleteBranch "temp_conflict_check_0_1",
       GitCmd.mergeAbort, GitCmd.checkoutNew "temp_conflict_check_1_0" "main",
       GitCmd.merge "PR_2", GitCmd.merge "PR_1", GitCmd.checkout "main",
       GitCmd.deleteBranch "temp_conflict_check_1_0"] := by
  decide

/-- C5 (amended): a diagonal cell always appends `false` and issues no
oracle command at all; and provided every infrastructure operation of the
run succeeds (so no spurious extra entries shift a row), the produced
matrix has entry [i][i] = false for every i.  Without the proviso the
matrix-level part fails on the code. -/
theorem diag_entries_spec (env : Env) (prs : List PR) (tr : List GitCmd)
    (h : InfraOk env) (i : Nat) (hi : i < prs.length) :
    (∀ (env2 : Env) (tr2 : List GitCmd) (p q : PR) (k : Nat),
        runCell env2 tr2 p q k k = ([false], tr2)) ∧
    ∃ m, matrixOf (detect_conflicts env prs tr) = some m ∧
      (m.getD i []).getD i false = false := by
  refine ⟨fun env2 tr2 p q k => runCell_diag env2 tr2 p q k, ?_⟩
  rw [detect_conflicts_infra env h prs tr]
  obtain ⟨tr₁, hrow⟩ := runRowsAux_getD env prs i prs 0 (tr ++ prs.map fetchCmd) hi
  simp only [Nat.zero_add] at hrow
  obtain ⟨tr₀, hcell⟩ := runRowAux_getD env h (prs.getD i dummyPR) i prs i 0 tr₁ hi
  simp only [Nat.zero_add] at hcell
  refine ⟨(runRowsAux env 0 prs prs (tr ++ prs.map fetchCmd)).1, rfl, ?_⟩
  rw [hrow, hcell, runCell_diag]
  rfl

/-- Witness for C5: the amended theorem instantiated at an all-successful
oracle and a concrete two-candidate list. -/
theorem diag_entries_spec_witness :
    ∃ m, matrixOf (detect_conflicts envTrue prs2 []) = some m ∧
      (m.getD 0 []).getD 0 false = false :=
  (diag_entries_spec envTrue prs2 [] (fun _ _ _ => rfl) 0 (by decide)).2

/-- Counterexample to C5 as stated: under `envC5` the cleanup checkout of
trial (1, 0) fails, the handler appends a second (spurious) entry to row 1
before the diagonal cell of that row runs, and the produced matrix has
entry [1][1] = true. -/
theorem diag_entry_cex :
    matrixOf (detect_conflicts envC5 prs2 []) =
      some [[false, false], [false, true, false]] ∧
    (([[false, false], [false, true, false]] : List (List Bool)).getD 1 []).getD 1 false
      = true := by
  decide

/-- C6: branch materialization fetches each candidate's head into its
canonical local branch name `PR_<number>`, using the fork's clone URL as
the remote when the candidate's head repository identity differs from the
base repository's, and the already-configured `origin` remote otherwise;
under a working oracle `fetch_pr_branches` issues exactly these fetches, in
candidate order. -/
theorem fetch_strategy_spec :
    (∀ pr : PR, pr.headRepoFullName ≠ pr.baseRepoFullName →
        fetchCmd pr = GitCmd.fetch pr.headCloneUrl (pr.headRef ++ ":" ++ get_branch_name pr)) ∧
    (∀ pr : PR, pr.headRepoFullName = pr.baseRepoFullName →
        fetchCmd pr = GitCmd.fetch "origin" (pr.headRef ++ ":" ++ get_branch_name pr)) ∧
    (∀ (env : Env) (tr : List GitCmd) (l : List PR), InfraOk env →
        fetch_pr_branches env tr l = Except.ok (tr ++ l.map fetchCmd)) := by
  refine ⟨?_, ?_, ?_⟩
  · intro pr hne; simp [fetchCmd, hne]
  · intro pr heq; simp [fetchCmd, heq]
  · intro env tr l h; exact fetch_pr_branches_ok env h l tr

/-- Witness for C6: a fork candidate is fetched from its clone URL, a
same-repository candidate from `origin`, and a concrete run fetches both
candidates in order. -/
theorem fetch_strategy_spec_witness :
    fetchCmd pFork = GitCmd.fetch "https://github.com/f/r.git" "feat:PR_7" ∧
    fetchCmd pA = GitCmd.fetch "origin" "feat-a:PR_1" ∧
    fetch_pr_branches envTrue [] prs2 = Except.ok
      [GitCmd.fetch "origin" "feat-a:PR_1", GitCmd.fetch "origin" "feat-b:PR_2"] := by
  refine ⟨fetch_strategy_spec.1 pFork (by decide), fetch_strategy_spec.2.1 pA rfl, ?_⟩
  rw [fetch_strategy_spec.2.2 envTrue [] prs2 (fun _ _ _ => rfl)]
  decide

/-- C7 (amended): with fewer than two eligible candidates the run
terminates normally (not as an error) and computes no matrix, and the only
oracle operations it ever attempted are the initial clone and — when no
truthy base-branch override was given — the default-branch query, both of
which happen before the candidate count is known; no fetch, merge, branch
creation, branch deletion or checkout is attempted.  The original "attempts
no merge-oracle operation" is refuted by the clone in the trace. -/
theorem early_termination_spec (url symref : String) (api : List PR) (env : Env)
    (hrepo : (get_repo_info url).isOk = true)
    (hclone : env [] (GitCmd.clone url) = true) :
    (∀ b : String, b ≠ "" → (get_open_prs api (some b)).length < 2 →
        main_run url (some b) symref api env = Except.ok ⟨none, [GitCmd.clone url]⟩) ∧
    (env [GitCmd.clone url] GitCmd.symbolicRef = true →
      (get_open_prs api (some ((pySplit (pyStrip symref) '/').getLastD ""))).length < 2 →
        main_run url none symref api env =
          Except.ok ⟨none, [GitCmd.clone url, GitCmd.symbolicRef]⟩) := by
  cases hgr : get_repo_info url with
  | error e => rw [hgr] at hrepo; simp [Except.isOk, Except.toBool] at hrepo
  | ok x =>
    constructor
    · intro b hb hlen
      have hb' : (b == "") = false := by simpa using hb
      simp [main_run, hgr, hclone, hb', mainWithBase, hlen]
    · intro hsym hlen
      have hlen' :
          (get_open_prs api
            (some ((pySplit (pyStrip symref) '/').getLast?.getD ""))).length < 2 := by
        simpa [List.getLastD_eq_getLast?] using hlen
      simp [main_run, hgr, hclone, hsym, mainWithBase, hlen']

/-- Witness for C7: a concrete zero-candidate run with an all-successful
oracle and no base override. -/
theorem early_termination_spec_witness :
    main_run "https://github.com/o/r" none "refs/remotes/origin/main" [] envTrue =
      Except.ok ⟨none, [GitCmd.clone "https://github.com/o/r", GitCmd.symbolicRef]⟩ :=
  (early_termination_spec "https://github.com/o/r" "refs/remotes/origin/main" [] envTrue
    (by decide) rfl).2 rfl (by decide)

/-- Counterexample to C7 as stated: a run with zero eligible candidates
terminates normally without a matrix, but its trace contains the clone (and
the default-branch query) — operations of the merge-oracle adapter — so
"attempts no merge-oracle operation" fails on the code: those operations
run before the candidate count is known. -/
theorem early_termination_cex :
    main_run "https://github.com/o/r" none "refs/remotes/origin/main" [] envTrue =
      Except.ok ⟨none, [GitCmd.clone "https://github.com/o/r", GitCmd.symbolicRef]⟩ ∧
    GitCmd.clone "https://github.com/o/r" ∈
      [GitCmd.clone "https://github.com/o/r", GitCmd.symbolicRef] := by
  decide

/-- C8: canonical local branch names `PR_<number>` are pairwise distinct
for distinct PR numbers, the temporary integration branch name is unique
per ordered pair (i, j), and no temporary branch name equals any
candidate's canonical local branch name. -/
theorem branch_naming_spec :
    (∀ p q : PR, p.number ≠ q.number → get_branch_name p ≠ get_branch_name q) ∧
    (∀ i j i' j' : Nat, temp_branch i j = temp_branch i' j' → i = i' ∧ j = j') ∧
    (∀ (p : PR) (i j : Nat), temp_branch i j ≠ get_branch_name p) := by
  refine ⟨?_, ?_, ?_⟩
  · intro p q hne he
    unfold get_branch_name at he
    have hd := congrArg String.data he
    rw [String.data_append, String.data_append] at hd
    exact hne (repr_inj (String.ext (List.append_cancel_left hd)))
  · intro i j i' j' he
    unfold temp_branch at he
    have hd := congrArg String.data he
    simp only [String.data_append, repr_eq_natChars, asString_data, List.append_assoc,
      show ("_" : String).data = ['_'] from rfl, List.singleton_append] at hd
    have hcd := List.append_cancel_left hd
    obtain ⟨h1, h2⟩ := splitUnderscore _ _ _ _
      (natChars_no_underscore i) (natChars_no_underscore i') hcd
    exact ⟨natChars_inj _ _ h1, natChars_inj _ _ h2⟩
  · intro p i j he
    unfold temp_branch get_branch_name at he
    have hd := congrArg String.data he
    simp only [String.data_append,
      show ("temp_conflict_check_" : String).data = 't' :: "emp_conflict_check_".data from rfl,
      show ("PR_" : String).data = 'P' :: "R_".data from rfl,
      List.cons_append, List.cons.injEq] at hd
    exact absurd hd.1 (by decide)

/-- Witness for C8: distinct concrete candidates get distinct local branch
names, and a concrete temporary branch name differs from a concrete local
branch name. -/
theorem branch_naming_spec_witness :
    get_branch_name pA ≠ get_branch_name pB ∧ temp_branch 0 1 ≠ get_branch_name pA :=
  ⟨branch_naming_spec.1 pA pB (by decide), branch_naming_spec.2.2 pA 0 1⟩

/-- C9 (amended): `get_open_prs` returns, in input order (a sublist of the
input), exactly the proposals that are not drafts, that target the given
base branch when a non-empty one is given, and whose upstream mergeability
is not the known-conflicting value (`some false`) — in particular unknown
mergeability (`none`) is included.  An empty base-branch string is falsy in
Python and disables the base filter, which refutes the unamended claim. -/
theorem get_open_prs_spec :
    (∀ (prs : List PR) (b : String) (pr : PR), b ≠ "" →
        (pr ∈ get_open_prs prs (some b) ↔
          pr ∈ prs ∧ pr.draft = false ∧ pr.baseRef = b ∧ pr.mergeable ≠ some false)) ∧
    (∀ (prs : List PR) (pr : PR),
        (pr ∈ get_open_prs prs none ↔
          pr ∈ prs ∧ pr.draft = false ∧ pr.mergeable ≠ some false)) ∧
    (∀ (prs : List PR) (bb : Option String), (get_open_prs prs bb).Sublist prs) := by
  refine ⟨?_, ?_, ?_⟩
  · intro prs b pr hb
    have hb' : (b == "") = false := by simpa using hb
    rw [get_open_prs, List.mem_filter, prKeep_some_eq b pr hb']
    simp [and_assoc]
  · intro prs pr
    rw [get_open_prs, List.mem_filter, prKeep_none_eq pr]
    simp [and_assoc]
  · intro prs bb
    exact List.filter_sublist prs

/-- Witness for C9: a candidate with unknown mergeability targeting `main`
is kept among drafts and known-conflicting candidates. -/
theorem get_open_prs_spec_witness :
    pB ∈ get_open_prs [pA, pDraft, pConflicting, pB] (some "main") :=
  (get_open_prs_spec.1 [pA, pDraft, pConflicting, pB] "main" pB (by decide)).mpr
    (by decide)

/-- Counterexample to C9 as stated: with the base branch given as the empty
string, a proposal targeting `main` — hence not targeting the given base —
is still returned, because Python's truthiness makes the empty string
disable the base-branch comparison. -/
theorem get_open_prs_empty_base_cex :
    get_open_prs [pA] (some "") = [pA] ∧ pA.baseRef ≠ "" := by
  decide

/-- C10: `get_repo_info` first strips one trailing `.git`, then one
trailing `/` (so stripping the slash of `x.git/` leaves the `.git`), splits
the remainder on `/`, raises `ValueError` exactly when fewer than two parts
result, and otherwise returns the last two parts as (owner, name); a bare
`owner/repo` with no host is accepted and no host or scheme validation is
performed. -/
theorem get_repo_info_spec :
    (∀ url : String, (pySplit (strippedUrl url) '/').length < 2 →
        get_repo_info url = Except.error "Invalid repository URL format") ∧
    (∀ url : String, 2 ≤ (pySplit (strippedUrl url) '/').length →
        get_repo_info url = Except.ok
          ((pySplit (strippedUrl url) '/').getD
             ((pySplit (strippedUrl url) '/').length - 2) "",
           (pySplit (strippedUrl url) '/').getD
             ((pySplit (strippedUrl url) '/').length - 1) "")) ∧
    strippedUrl "x.git" = "x" ∧
    strippedUrl "x/" = "x" ∧
    strippedUrl "x.git/" = "x.git" ∧
    get_repo_info "owner/repo" = Except.ok ("owner", "repo") ∧
    get_repo_info "https://github.com/own/rep.git" = Except.ok ("own", "rep") ∧
    get_repo_info "norepo" = Except.error "Invalid repository URL format" := by
  refine ⟨?_, ?_, by decide, by decide, by decide, by decide, by decide, by decide⟩
  · intro url hlt
    simp only [get_repo_info]
    rw [if_pos hlt]
  · intro url hge
    have hn : ¬ (pySplit (strippedUrl url) '/').length < 2 := by omega
    simp only [get_repo_info]
    rw [if_neg hn]

/-- Witness for C10: the error clause applied at a concrete separator-free
URL. -/
theorem get_repo_info_spec_witness :
    get_repo_info "norepo" = Except.error "Invalid repository URL format" :=
  get_repo_info_spec.1 "norepo" (by decide)
